import Mathlib

/-!
Verification development for the buffer-construction pipeline of
`src/operation/buffer/BufferBuilder.cpp` (GEOS buffer builder).

The C++ code is shallowly embedded below.  Doubles are modelled as exact
rationals (`ℚ`); Euclidean-distance comparisons, whose C++ form is
`sqrt(s) < r`, are embedded by their exact characterisations over squares
(`0 < r ∧ s < r*r`), which agree with the real-number semantics of the
source expressions.  External collaborators of the orchestrator (curve-set
builder, noder, overlay, polygonizer, line merger, unary union, ...) are
out of scope for the source file and are passed in as an explicit record
of functions (`Collab`), exactly at the call sites where the C++ invokes
them.
-/

/-- Topological location of a point relative to a geometry
(geos::geom::Location).  `NONE` is the undefined location. -/
inductive Location where
  | NONE
  | INTERIOR
  | BOUNDARY
  | EXTERIOR
deriving DecidableEq, Repr

/-- Modelled from the spec: the per-geometry side record of a `Label`
(geomgraph::TopologyLocation, not under src/): one location for each of
the positions ON, LEFT, RIGHT. -/
structure TopologyLocation where
  onLoc : Location
  leftLoc : Location
  rightLoc : Location
deriving DecidableEq, Repr

/-- Modelled from the spec: merging one location into another keeps the
existing value unless it is undefined (maximum-information combination). -/
def mergeLoc (a b : Location) : Location :=
  if a = Location.NONE then b else a

/-- Modelled from the spec: `TopologyLocation::flip` exchanges the LEFT and
RIGHT locations. -/
def TopologyLocation.flip (t : TopologyLocation) : TopologyLocation :=
  { t with leftLoc := t.rightLoc, rightLoc := t.leftLoc }

/-- Modelled from the spec: pointwise maximum-information merge of two
side records. -/
def TopologyLocation.merge (t o : TopologyLocation) : TopologyLocation :=
  ⟨mergeLoc t.onLoc o.onLoc, mergeLoc t.leftLoc o.leftLoc, mergeLoc t.rightLoc o.rightLoc⟩

/-- Modelled from the spec: a topological `Label` (geomgraph::Label, not
under src/): a side record for each of the two source geometries. -/
structure Label where
  elt0 : TopologyLocation
  elt1 : TopologyLocation
deriving DecidableEq, Repr

/-- Modelled from the spec: `Label::flip` flips both side records. -/
def Label.flip (l : Label) : Label :=
  ⟨l.elt0.flip, l.elt1.flip⟩

/-- Modelled from the spec: `Label::merge` merges pointwise. -/
def Label.merge (l o : Label) : Label :=
  ⟨l.elt0.merge o.elt0, l.elt1.merge o.elt1⟩

/-- A 2-D coordinate with exact rational components (models geom::Coordinate
with doubles read as exact values). -/
structure Coord where
  x : ℚ
  y : ℚ
deriving DecidableEq, Repr

instance : Inhabited Coord := ⟨⟨0, 0⟩⟩

/-- Embedding of `BufferBuilder::depthDelta` (BufferBuilder.cpp:109-121):
`+1` if geometry-0 locations are LEFT=INTERIOR and RIGHT=EXTERIOR, `-1`
if LEFT=EXTERIOR and RIGHT=INTERIOR, else `0`. -/
def depthDelta (label : Label) : Int :=
  let lLoc := label.elt0.leftLoc
  let rLoc := label.elt0.rightLoc
  if lLoc = Location.INTERIOR ∧ rLoc = Location.EXTERIOR then 1
  else if lLoc = Location.EXTERIOR ∧ rLoc = Location.INTERIOR then -1
  else 0

/-- A geomgraph `Edge` as used by the buffer builder: an immutable
coordinate chain, a `Label`, and a mutable depth delta. -/
structure Edge where
  pts : List Coord
  label : Label
  depthDelta : Int
deriving DecidableEq, Repr

/-- Embedding of `Edge::isPointwiseEqual`: the two coordinate chains are identical in
the same order. -/
def isPointwiseEqual (a b : Edge) : Bool :=
  decide (a.pts = b.pts)

/-- Edge equality as used by `EdgeList::findEqualEdge`: the coordinate
chains are identical or reverse-identical. -/
def edgeEquals (a b : Edge) : Bool :=
  decide (a.pts = b.pts) || decide (a.pts = b.pts.reverse)

/-- The label merged into an existing equal edge by
`BufferBuilder::insertUniqueEdge` (BufferBuilder.cpp:683-689): the
incoming edge's label, flipped exactly when the incoming edge is not
pointwise-equal to the existing one. -/
def labelToMergeOf (existing e : Edge) : Label :=
  if isPointwiseEqual existing e then e.label else e.label.flip

/-- The update applied to an existing equal edge by
`BufferBuilder::insertUniqueEdge` (BufferBuilder.cpp:680-701): merge the
(possibly flipped) label and add its depth delta. -/
def mergeIntoExisting (existing e : Edge) : Edge :=
  { existing with
      label := existing.label.merge (labelToMergeOf existing e),
      depthDelta := existing.depthDelta + depthDelta (labelToMergeOf existing e) }

/-- Embedding of `BufferBuilder::insertUniqueEdge` (BufferBuilder.cpp:674-710)
acting on the edge list (kept as the list of stored edges): if an equal
edge exists, merge into the first such edge in place; otherwise append the
new edge with its depth delta computed from its own label. -/
def insertUniqueEdge : List Edge → Edge → List Edge
  | [], e => [{ e with depthDelta := depthDelta e.label }]
  | ex :: rest, e =>
      if edgeEquals ex e then mergeIntoExisting ex e :: rest
      else ex :: insertUniqueEdge rest e

/-- Helper: the depth-delta function, stated by cases on the geometry-0
locations. -/
theorem depthDelta_cases (lab : Label) :
    ((lab.elt0.leftLoc = Location.INTERIOR ∧ lab.elt0.rightLoc = Location.EXTERIOR) →
       depthDelta lab = 1) ∧
    ((lab.elt0.leftLoc = Location.EXTERIOR ∧ lab.elt0.rightLoc = Location.INTERIOR) →
       depthDelta lab = -1) ∧
    ((¬(lab.elt0.leftLoc = Location.INTERIOR ∧ lab.elt0.rightLoc = Location.EXTERIOR) ∧
      ¬(lab.elt0.leftLoc = Location.EXTERIOR ∧ lab.elt0.rightLoc = Location.INTERIOR)) →
       depthDelta lab = 0) := by
  unfold depthDelta
  refine ⟨fun h => ?_, fun h => ?_, fun h => ?_⟩
  · simp [h.1, h.2]
  · rcases h with ⟨h1, h2⟩
    simp [h1, h2]
  · rcases h with ⟨h1, h2⟩
    rw [if_neg h1, if_neg h2]

/-- Helper: inserting an edge with no equal edge present appends it with
its depth delta computed from its own label (BufferBuilder.cpp:703-709). -/
theorem insertUniqueEdge_of_no_equal (el : List Edge) (e : Edge)
    (h : ∀ a ∈ el, edgeEquals a e = false) :
    insertUniqueEdge el e = el ++ [{ e with depthDelta := depthDelta e.label }] := by
  induction el with
  | nil => simp [insertUniqueEdge]
  | cons ex rest ih =>
      have hex : edgeEquals ex e = false := h ex (by simp)
      simp only [insertUniqueEdge, hex, Bool.false_eq_true, if_false, List.cons_append,
        List.cons.injEq, true_and]
      exact ih (fun a ha => h a (by simp [ha]))

/-- Helper: inserting an edge when an equal edge is stored merges into the
first stored equal edge in place, leaving the rest of the list unchanged. -/
theorem insertUniqueEdge_of_equal (el1 el2 : List Edge) (ex e : Edge)
    (h1 : ∀ a ∈ el1, edgeEquals a e = false) (h2 : edgeEquals ex e = true) :
    insertUniqueEdge (el1 ++ ex :: el2) e = el1 ++ mergeIntoExisting ex e :: el2 := by
  induction el1 with
  | nil => simp [insertUniqueEdge, h2]
  | cons a rest ih =>
      have ha : edgeEquals a e = false := h1 a (by simp)
      simp only [List.cons_append, insertUniqueEdge, ha, Bool.false_eq_true, if_false,
        List.cons.injEq, true_and]
      exact ih (fun b hb => h1 b (by simp [hb]))

/-- C1: when `BufferBuilder::insertUniqueEdge` finds an equal edge already
stored (identical or reverse-identical chain), the incoming label is
flipped exactly when the incoming edge is not pointwise-equal to the
existing one, the (possibly flipped) label is merged into the existing
edge's label, the existing edge's depth delta is incremented by the depth
delta of the (possibly flipped) label, and no new edge is added (the list
keeps its length, all other entries untouched). -/
theorem claim_C1_insertUniqueEdge_merge (el1 el2 : List Edge) (ex e : Edge)
    (h1 : ∀ a ∈ el1, edgeEquals a e = false) (h2 : edgeEquals ex e = true) :
    insertUniqueEdge (el1 ++ ex :: el2) e =
      el1 ++ { ex with
          label := ex.label.merge
            (if isPointwiseEqual ex e then e.label else e.label.flip),
          depthDelta := ex.depthDelta +
            depthDelta (if isPointwiseEqual ex e then e.label else e.label.flip) } :: el2 ∧
    (insertUniqueEdge (el1 ++ ex :: el2) e).length = (el1 ++ ex :: el2).length := by
  have hmain := insertUniqueEdge_of_equal el1 el2 ex e h1 h2
  constructor
  · rw [hmain]
    rfl
  · rw [hmain]
    simp

/-- Concrete incoming edge used by the C1 witness: the reverse of the
stored chain, so the label must be flipped before merging. -/
def eC1 : Edge :=
  ⟨[⟨1, 0⟩, ⟨0, 0⟩],
   ⟨⟨Location.NONE, Location.INTERIOR, Location.EXTERIOR⟩,
    ⟨Location.NONE, Location.NONE, Location.NONE⟩⟩, 0⟩

/-- Concrete stored edge used by the C1 witness. -/
def exC1 : Edge :=
  ⟨[⟨0, 0⟩, ⟨1, 0⟩],
   ⟨⟨Location.NONE, Location.NONE, Location.NONE⟩,
    ⟨Location.NONE, Location.NONE, Location.NONE⟩⟩, 0⟩

/-- Witness for C1 at a concrete reverse-identical pair of edges. -/
theorem claim_C1_insertUniqueEdge_merge_witness :
    edgeEquals exC1 eC1 = true ∧
    isPointwiseEqual exC1 eC1 = false ∧
    insertUniqueEdge [exC1] eC1 =
      [{ exC1 with
          label := exC1.label.merge eC1.label.flip,
          depthDelta := exC1.depthDelta + depthDelta eC1.label.flip }] ∧
    (insertUniqueEdge [exC1] eC1).length = 1 := by
  have h := claim_C1_insertUniqueEdge_merge [] [] exC1 eC1 (by simp) (by decide)
  refine ⟨by decide, by decide, ?_, ?_⟩
  · have h1 := h.1
    simpa [show isPointwiseEqual exC1 eC1 = false by decide] using h1
  · simpa using h.2

/-- C2: `BufferBuilder::depthDelta` returns `+1` when the label's
geometry-0 locations are LEFT=INTERIOR and RIGHT=EXTERIOR, `-1` when they
are LEFT=EXTERIOR and RIGHT=INTERIOR, and `0` in every other case; and an
edge inserted with no equal edge present is appended to the edge list with
its depth delta set to this function of its own label. -/
theorem claim_C2_depthDelta (lab : Label) (el : List Edge) (e : Edge)
    (h : ∀ a ∈ el, edgeEquals a e = false) :
    ((lab.elt0.leftLoc = Location.INTERIOR ∧ lab.elt0.rightLoc = Location.EXTERIOR) →
       depthDelta lab = 1) ∧
    ((lab.elt0.leftLoc = Location.EXTERIOR ∧ lab.elt0.rightLoc = Location.INTERIOR) →
       depthDelta lab = -1) ∧
    ((¬(lab.elt0.leftLoc = Location.INTERIOR ∧ lab.elt0.rightLoc = Location.EXTERIOR) ∧
      ¬(lab.elt0.leftLoc = Location.EXTERIOR ∧ lab.elt0.rightLoc = Location.INTERIOR)) →
       depthDelta lab = 0) ∧
    insertUniqueEdge el e = el ++ [{ e with depthDelta := depthDelta e.label }] := by
  rcases depthDelta_cases lab with ⟨c1, c2, c3⟩
  exact ⟨c1, c2, c3, insertUniqueEdge_of_no_equal el e h⟩

/-- Witness for C2 at a concrete label with (INTERIOR, EXTERIOR) sides and
a concrete fresh edge. -/
theorem claim_C2_depthDelta_witness :
    eC1.label.elt0.leftLoc = Location.INTERIOR ∧
    eC1.label.elt0.rightLoc = Location.EXTERIOR ∧
    depthDelta eC1.label = 1 ∧
    insertUniqueEdge [] eC1 = [{ eC1 with depthDelta := 1 }] := by
  have h := claim_C2_depthDelta eC1.label [] eC1 (by simp)
  refine ⟨by decide, by decide, h.1 ⟨by decide, by decide⟩, ?_⟩
  have h4 := h.2.2.2
  simpa [show depthDelta eC1.label = 1 from h.1 ⟨by decide, by decide⟩] using h4

/-- Embedding of `RepeatedPointRemover::removeRepeatedPoints` restricted to
what `computeNodedEdges` needs: drop repeated consecutive points (runs of
equal coordinates collapse to one point). -/
def removeRepeatedPoints : List Coord → List Coord
  | [] => []
  | [c] => [c]
  | a :: b :: rest =>
      if a = b then removeRepeatedPoints (b :: rest)
      else a :: removeRepeatedPoints (b :: rest)

/-- A coordinate chain with no two equal consecutive points. -/
def noConsecDup : List Coord → Bool
  | a :: b :: rest => decide (a ≠ b) && noConsecDup (b :: rest)
  | _ => true

/-- Helper: `removeRepeatedPoints` keeps the first point of a nonempty
input at the head (the whole leading run is equal to it). -/
theorem removeRepeatedPoints_cons (b : Coord) (rest : List Coord) :
    ∃ t, removeRepeatedPoints (b :: rest) = b :: t := by
  induction rest generalizing b with
  | nil => exact ⟨[], rfl⟩
  | cons c rest' ih =>
      by_cases hbc : b = c
      · rcases ih c with ⟨t, ht⟩
        exact ⟨t, by rw [removeRepeatedPoints, if_pos hbc, ht, hbc]⟩
      · exact ⟨removeRepeatedPoints (c :: rest'), by rw [removeRepeatedPoints, if_neg hbc]⟩

/-- Helper: the output of `removeRepeatedPoints` has no repeated
consecutive points. -/
theorem noConsecDup_removeRepeatedPoints (l : List Coord) :
    noConsecDup (removeRepeatedPoints l) = true := by
  induction l with
  | nil => rfl
  | cons a l' ih =>
      cases l' with
      | nil => rfl
      | cons b rest =>
          by_cases hab : a = b
          · rw [removeRepeatedPoints, if_pos hab]
            exact ih
          · rw [removeRepeatedPoints, if_neg hab]
            rcases removeRepeatedPoints_cons b rest with ⟨t, ht⟩
            rw [ht]
            rw [ht] at ih
            simp only [noConsecDup, Bool.and_eq_true, decide_eq_true_eq]
            exact ⟨hab, ih⟩

/-- A noded substring as handed to `computeNodedEdges`: a coordinate chain
together with the label stored in the segment string's user data. -/
structure NodedString where
  pts : List Coord
  label : Label
deriving DecidableEq, Repr

/-- Embedding of the insertion loop of `BufferBuilder::computeNodedEdges`
(BufferBuilder.cpp:643-663): the noder (passed as a function, it is an
external collaborator) produces noded substrings; each one is cleaned of
repeated points, discarded if fewer than 2 points remain, and otherwise
inserted into the edge list as a fresh `Edge` carrying the old label. -/
def computeNodedEdges (node : List NodedString → List NodedString)
    (el : List Edge) (curves : List NodedString) : List Edge :=
  (node curves).foldl
    (fun acc ss =>
      let cs := removeRepeatedPoints ss.pts
      if cs.length < 2 then acc
      else insertUniqueEdge acc ⟨cs, ss.label, 0⟩)
    el

/-- A well-formed edge chain: at least 2 coordinates, no repeated
consecutive points. -/
def goodEdge (e : Edge) : Prop :=
  2 ≤ e.pts.length ∧ noConsecDup e.pts = true

instance (e : Edge) : Decidable (goodEdge e) := by
  unfold goodEdge
  infer_instance

/-- Helper: `insertUniqueEdge` preserves well-formedness of all stored
chains when the incoming chain is well-formed (merging keeps the existing
chain, appending adds the incoming one). -/
theorem insertUniqueEdge_preserves_good (el : List Edge) (e : Edge)
    (hel : ∀ a ∈ el, goodEdge a) (he : goodEdge e) :
    ∀ a ∈ insertUniqueEdge el e, goodEdge a := by
  induction el with
  | nil =>
      intro a ha
      simp only [insertUniqueEdge, List.mem_singleton] at ha
      subst ha
      exact he
  | cons ex rest ih =>
      intro a ha
      rw [show insertUniqueEdge (ex :: rest) e =
            if edgeEquals ex e then mergeIntoExisting ex e :: rest
            else ex :: insertUniqueEdge rest e from rfl] at ha
      by_cases hx : edgeEquals ex e = true
      · rw [if_pos hx, List.mem_cons] at ha
        rcases ha with rfl | ha
        · have := hel ex (by simp)
          rcases this with ⟨hlen, hdup⟩
          exact ⟨hlen, hdup⟩
        · exact hel a (by simp [ha])
      · rw [if_neg hx, List.mem_cons] at ha
        rcases ha with rfl | ha
        · exact hel a (by simp)
        · exact ih (fun b hb => hel b (by simp [hb])) a ha

/-- C10: starting from an edge list whose chains are well formed, every
edge stored after `computeNodedEdges` has at least 2 coordinates and no
repeated consecutive points: substrings collapsing below 2 points after
repeated-point removal are discarded, and inserted chains come out of
`removeRepeatedPoints`. -/
theorem claim_C10_computeNodedEdges_wellformed
    (node : List NodedString → List NodedString)
    (el : List Edge) (curves : List NodedString)
    (hel : ∀ a ∈ el, goodEdge a) :
    ∀ e ∈ computeNodedEdges node el curves, goodEdge e := by
  unfold computeNodedEdges
  generalize node curves = ns
  induction ns generalizing el with
  | nil => exact hel
  | cons ss rest ih =>
      simp only [List.foldl_cons]
      by_cases hlen : (removeRepeatedPoints ss.pts).length < 2
      · rw [if_pos hlen]
        exact ih el hel
      · rw [if_neg hlen]
        refine ih _ ?_
        refine insertUniqueEdge_preserves_good el _ hel ?_
        exact ⟨Nat.le_of_not_lt hlen, noConsecDup_removeRepeatedPoints ss.pts⟩

/-- Witness for C10: a concrete run over one substring containing a
repeated point, starting from the empty edge list. -/
theorem claim_C10_computeNodedEdges_wellformed_witness :
    (computeNodedEdges id []
        [⟨[⟨0, 0⟩, ⟨0, 0⟩, ⟨1, 0⟩], eC1.label⟩, ⟨[⟨2, 2⟩], eC1.label⟩] =
      [⟨[⟨0, 0⟩, ⟨1, 0⟩], eC1.label, depthDelta eC1.label⟩]) ∧
    ∀ e ∈ computeNodedEdges id []
        [⟨[⟨0, 0⟩, ⟨0, 0⟩, ⟨1, 0⟩], eC1.label⟩, ⟨[⟨2, 2⟩], eC1.label⟩],
      goodEdge e := by
  constructor
  · decide
  · exact claim_C10_computeNodedEdges_wellformed id []
      [⟨[⟨0, 0⟩, ⟨0, 0⟩, ⟨1, 0⟩], eC1.label⟩, ⟨[⟨2, 2⟩], eC1.label⟩] (by simp)

/-- A connected buffer subgraph as seen by `createSubgraphs` and
`buildSubgraphs`: only its rightmost coordinate and an identifying payload
matter here (graph contents are opaque to the sort and the depth query). -/
structure BufferSubgraph where
  rightmostCoord : Coord
  payload : Nat
deriving DecidableEq, Repr

/-- Modelled from the spec: `BufferSubgraph::compareTo` (BufferSubgraph is
not under src/) orders subgraphs by their rightmost coordinate: negative
when this subgraph's rightmost x is smaller, positive when greater, zero
on ties. -/
def BufferSubgraph.compareTo (a b : BufferSubgraph) : Int :=
  if a.rightmostCoord.x < b.rightmostCoord.x then -1
  else if b.rightmostCoord.x < a.rightmostCoord.x then 1
  else 0

/-- Embedding of the comparator `BufferSubgraphGT`
(BufferBuilder.cpp:712-721): true when `first.compareTo(second) > 0`. -/
def BufferSubgraphGT (a b : BufferSubgraph) : Bool :=
  decide (0 < a.compareTo b)

/-- The sortedness relation guaranteed by `std::sort` with comparator
`BufferSubgraphGT`: a precedes b when b's rightmost x does not exceed
a's (descending order of rightmost coordinate). -/
def subgraphGE (a b : BufferSubgraph) : Prop :=
  b.rightmostCoord.x ≤ a.rightmostCoord.x

instance : DecidableRel subgraphGE := fun a b =>
  inferInstanceAs (Decidable (b.rightmostCoord.x ≤ a.rightmostCoord.x))

instance : IsTotal BufferSubgraph subgraphGE :=
  ⟨fun a b => (le_total b.rightmostCoord.x a.rightmostCoord.x).imp
    (fun h => h) (fun h => h)⟩

instance : IsTrans BufferSubgraph subgraphGE :=
  ⟨fun _ _ _ hab hbc => le_trans hbc hab⟩

/-- Embedding of the sort in `BufferBuilder::createSubgraphs`
(BufferBuilder.cpp:723-745): the extracted subgraph list (subgraph
extraction itself is external to the control flow modelled here) is sorted
in descending order of rightmost coordinate.  `std::sort` guarantees a
permutation sorted under the comparator; it is realised here by insertion
sort. -/
def createSubgraphs (sgl : List BufferSubgraph) : List BufferSubgraph :=
  List.insertionSort subgraphGE sgl

/-- Embedding of the loop of `BufferBuilder::buildSubgraphs`
(BufferBuilder.cpp:748-790): for each subgraph in order, the depth of its
rightmost coordinate is queried against the already-processed subgraphs
(the `SubgraphDepthLocater` is external and passed as `gd`), then the
subgraph is appended to `processedGraphs` before the next iteration.  The
result records, per subgraph, the outside depth it was assigned. -/
def buildSubgraphsLoop (gd : List BufferSubgraph → Coord → Int) :
    List BufferSubgraph → List BufferSubgraph → List (BufferSubgraph × Int)
  | _, [] => []
  | processed, sg :: rest =>
      (sg, gd processed sg.rightmostCoord) ::
        buildSubgraphsLoop gd (processed ++ [sg]) rest

/-- Entry point `buildSubgraphs` starts from an empty processed list. -/
def buildSubgraphs (gd : List BufferSubgraph → Coord → Int)
    (sgl : List BufferSubgraph) : List (BufferSubgraph × Int) :=
  buildSubgraphsLoop gd [] sgl

/-- Helper: in `buildSubgraphsLoop`, the i-th query sees exactly the
accumulated prefix: previously processed subgraphs plus the first i
subgraphs of the remaining list. -/
theorem buildSubgraphsLoop_get (gd : List BufferSubgraph → Coord → Int)
    (l : List BufferSubgraph) :
    ∀ (pre : List BufferSubgraph) (i : Nat) (sg : BufferSubgraph),
      l.get? i = some sg →
      (buildSubgraphsLoop gd pre l).get? i =
        some (sg, gd (pre ++ l.take i) sg.rightmostCoord) := by
  induction l with
  | nil =>
      intro pre i sg h
      simp at h
  | cons a l' ih =>
      intro pre i sg h
      cases i with
      | zero =>
          simp only [List.get?_cons_zero, Option.some.injEq] at h
          subst h
          simp [buildSubgraphsLoop]
      | succ i' =>
          simp only [List.get?_cons_succ] at h
          have := ih (pre ++ [a]) i' sg h
          simpa [buildSubgraphsLoop, List.take_succ_cons, List.append_assoc] using this

/-- C7: the subgraphs are sorted in descending order of rightmost
coordinate before depth assignment (the sortedness relation is exactly the
negation of the source comparator `BufferSubgraphGT`), the sorted list is
a permutation of the extracted one, and in `buildSubgraphs` the i-th depth
query sees exactly the i subgraphs preceding the queried one in sorted
order. -/
theorem claim_C7_subgraph_order (gd : List BufferSubgraph → Coord → Int)
    (sgl : List BufferSubgraph) :
    List.Perm (createSubgraphs sgl) sgl ∧
    List.Sorted subgraphGE (createSubgraphs sgl) ∧
    (∀ a b : BufferSubgraph, subgraphGE a b ↔ BufferSubgraphGT b a = false) ∧
    (∀ (i : Nat) (sg : BufferSubgraph),
      (createSubgraphs sgl).get? i = some sg →
      (buildSubgraphs gd (createSubgraphs sgl)).get? i =
        some (sg, gd ((createSubgraphs sgl).take i) sg.rightmostCoord)) := by
  refine ⟨List.perm_insertionSort subgraphGE sgl,
          List.sorted_insertionSort subgraphGE sgl, ?_, ?_⟩
  · intro a b
    unfold subgraphGE BufferSubgraphGT BufferSubgraph.compareTo
    rcases lt_trichotomy a.rightmostCoord.x b.rightmostCoord.x with h | h | h
    · rw [if_neg (not_lt.mpr (le_of_lt h)), if_pos h]
      simp [not_le.mpr h]
    · rw [if_neg (not_lt.mpr (le_of_eq h.symm)), if_neg (not_lt.mpr (le_of_eq h))]
      simp [le_of_eq h.symm]
    · rw [if_pos h]
      simp [le_of_lt h]
  · intro i sg h
    exact buildSubgraphsLoop_get gd (createSubgraphs sgl) [] i sg h

/-- Witness for C7: three concrete subgraphs; the depth oracle returns the
number of subgraphs it is shown, exhibiting that the i-th query sees
exactly i subgraphs. -/
theorem claim_C7_subgraph_order_witness :
    createSubgraphs [⟨⟨1, 0⟩, 10⟩, ⟨⟨3, 0⟩, 11⟩, ⟨⟨2, 0⟩, 12⟩] =
      [⟨⟨3, 0⟩, 11⟩, ⟨⟨2, 0⟩, 12⟩, ⟨⟨1, 0⟩, 10⟩] ∧
    buildSubgraphs (fun l _ => (l.length : Int))
        (createSubgraphs [⟨⟨1, 0⟩, 10⟩, ⟨⟨3, 0⟩, 11⟩, ⟨⟨2, 0⟩, 12⟩]) =
      [(⟨⟨3, 0⟩, 11⟩, 0), (⟨⟨2, 0⟩, 12⟩, 1), (⟨⟨1, 0⟩, 10⟩, 2)] ∧
    (buildSubgraphs (fun l _ => (l.length : Int))
        (createSubgraphs [⟨⟨1, 0⟩, 10⟩, ⟨⟨3, 0⟩, 11⟩, ⟨⟨2, 0⟩, 12⟩])).get? 2 =
      some (⟨⟨1, 0⟩, 10⟩,
        (fun l _ => (l.length : Int))
          ((createSubgraphs [⟨⟨1, 0⟩, 10⟩, ⟨⟨3, 0⟩, 11⟩, ⟨⟨2, 0⟩, 12⟩]).take 2)
          (⟨1, 0⟩ : Coord)) := by
  refine ⟨by decide, by decide, ?_⟩
  exact (claim_C7_subgraph_order (fun l _ => (l.length : Int))
    [⟨⟨1, 0⟩, 10⟩, ⟨⟨3, 0⟩, 11⟩, ⟨⟨2, 0⟩, 12⟩]).2.2.2 2 ⟨⟨1, 0⟩, 10⟩ (by decide)

/-- Squared Euclidean distance between two coordinates. -/
def distSq (a b : Coord) : ℚ :=
  (a.x - b.x) * (a.x - b.x) + (a.y - b.y) * (a.y - b.y)

/-- Exact embedding of the C++ comparison `a.distance(b) < r`
(`sqrt(distSq) < r`): true iff `r` is positive and the squared distance is
below `r*r`. -/
def distLtB (a b : Coord) (r : ℚ) : Bool :=
  decide (0 < r) && decide (distSq a b < r * r)

/-- Exact embedding of the C++ comparison `a.distance(b) > t`
(`sqrt(distSq) > t`): true iff `t` is negative or the squared distance
exceeds `t*t`. -/
def segGtB (a b : Coord) (t : ℚ) : Bool :=
  decide (t < 0) || decide (t * t < distSq a b)

/-- The point-distance allowance of the single-sided clean-up
(BufferBuilder.cpp:270): `max(distance - length*0.1, distance*0.98)`,
with the signed distance as passed. -/
def ptDistAllowance (distance len : ℚ) : ℚ :=
  max (distance - len * (1 / 10)) (distance * (98 / 100))

/-- The segment-length allowance of the single-sided clean-up
(BufferBuilder.cpp:274): `1.02 * distance`. -/
def segLengthAllowance (distance : ℚ) : ℚ :=
  (102 / 100) * distance

/-- One trimming pass of the single-sided clean-up
(BufferBuilder.cpp:283-297, and its three analogues): while more than one
point remains and the end vertex lies within the allowance of the
reference point, stop if the adjacent segment is longer than the
segment-length allowance, otherwise drop the end vertex. -/
def trimFrontBy (ref : Coord) (A S : ℚ) : List Coord → List Coord
  | c0 :: c1 :: rest =>
      if distLtB c0 ref A then
        if segGtB c0 c1 S then c0 :: c1 :: rest
        else trimFrontBy ref A S (c1 :: rest)
      else c0 :: c1 :: rest
  | l => l

/-- Embedding of the whole per-polyline trimming of
`BufferBuilder::bufferLineSingleSided` (BufferBuilder.cpp:276-324): the
front is trimmed first against the input's start point and then against
its end point; then the back (via reversal) likewise against the start
point and then the end point. -/
def trimLineSS (startP endP : Coord) (A S : ℚ) (cs : List Coord) : List Coord :=
  let l1 := trimFrontBy startP A S cs
  let l2 := trimFrontBy endP A S l1
  let l3 := trimFrontBy startP A S l2.reverse
  let l4 := trimFrontBy endP A S l3
  l4.reverse

/-- The trimming pass as the claim words it: a single loop per end that
drops the end vertex whenever it is near the start point OR near the end
point (and the adjacent segment is short), stopping at the first vertex
failing this combined condition. -/
def claimTrimFront (startP endP : Coord) (A S : ℚ) : List Coord → List Coord
  | c0 :: c1 :: rest =>
      if (distLtB c0 startP A || distLtB c0 endP A) && !segGtB c0 c1 S then
        claimTrimFront startP endP A S (c1 :: rest)
      else c0 :: c1 :: rest
  | l => l

/-- The whole per-polyline trimming as the claim words it: one combined
pass from the front, one combined pass from the back. -/
def claimTrim (startP endP : Coord) (A S : ℚ) (cs : List Coord) : List Coord :=
  (claimTrimFront startP endP A S
    (claimTrimFront startP endP A S cs).reverse).reverse

/-- The condition under which one trimming pass removes the current front
vertex. -/
def headRemovableB (ref : Coord) (A S : ℚ) : List Coord → Bool
  | c0 :: c1 :: _ => distLtB c0 ref A && !segGtB c0 c1 S
  | _ => false

/-- One trimming pass removes a maximal removable prefix: the output is a
suffix of the input, every dropped position was removable when it was at
the front, and the pass stops at the first non-removable front. -/
def phaseOk (ref : Coord) (A S : ℚ) (inp outp : List Coord) : Prop :=
  ∃ k, k ≤ inp.length ∧ outp = inp.drop k ∧
    (∀ j, j < k → headRemovableB ref A S (inp.drop j) = true) ∧
    headRemovableB ref A S (inp.drop k) = false

/-- Helper: each trimming pass satisfies `phaseOk`. -/
theorem trimFrontBy_phaseOk (ref : Coord) (A S : ℚ) (cs : List Coord) :
    phaseOk ref A S cs (trimFrontBy ref A S cs) := by
  induction cs with
  | nil => exact ⟨0, by simp [trimFrontBy, headRemovableB]⟩
  | cons c0 tl ih =>
      cases tl with
      | nil =>
          exact ⟨0, by simp [trimFrontBy, headRemovableB]⟩
      | cons c1 rest =>
          by_cases hrem : headRemovableB ref A S (c0 :: c1 :: rest) = true
          · have hd : distLtB c0 ref A = true := by
              have := hrem
              simp only [headRemovableB, Bool.and_eq_true] at this
              exact this.1
            have hs : segGtB c0 c1 S = false := by
              have := hrem
              simp only [headRemovableB, Bool.and_eq_true, Bool.not_eq_true'] at this
              exact this.2
            have hstep : trimFrontBy ref A S (c0 :: c1 :: rest) =
                trimFrontBy ref A S (c1 :: rest) := by
              rw [show trimFrontBy ref A S (c0 :: c1 :: rest) =
                    if distLtB c0 ref A then
                      if segGtB c0 c1 S then c0 :: c1 :: rest
                      else trimFrontBy ref A S (c1 :: rest)
                    else c0 :: c1 :: rest from rfl, hd, hs]
              simp
            rcases ih with ⟨k, hk, hout, hall, hstop⟩
            refine ⟨k + 1, by simpa using Nat.succ_le_succ hk, ?_, ?_, ?_⟩
            · rw [hstep, hout]
              rfl
            · intro j hj
              cases j with
              | zero => exact hrem
              | succ j' => exact hall j' (Nat.lt_of_succ_lt_succ hj)
            · exact hstop
          · have hrem' : headRemovableB ref A S (c0 :: c1 :: rest) = false :=
              Bool.eq_false_iff.mpr hrem
            have hstay : trimFrontBy ref A S (c0 :: c1 :: rest) = c0 :: c1 :: rest := by
              rw [show trimFrontBy ref A S (c0 :: c1 :: rest) =
                    if distLtB c0 ref A then
                      if segGtB c0 c1 S then c0 :: c1 :: rest
                      else trimFrontBy ref A S (c1 :: rest)
                    else c0 :: c1 :: rest from rfl]
              by_cases hd : distLtB c0 ref A = true
              · have hs : segGtB c0 c1 S = true := by
                  by_contra hns
                  have hs' : segGtB c0 c1 S = false := Bool.eq_false_iff.mpr hns
                  have hcontra : headRemovableB ref A S (c0 :: c1 :: rest) = true := by
                    simp [headRemovableB, hd, hs']
                  rw [hcontra] at hrem'
                  exact Bool.noConfusion hrem'
                simp [hd, hs]
              · simp [hd]
            refine ⟨0, Nat.zero_le _, by simp [hstay], ?_, by simpa using hrem'⟩
            intro j hj
            exact absurd hj (Nat.not_lt_zero j)

/-- C4 (amended): the clean-up of `bufferLineSingleSided` trims each
merged polyline in four sequential passes, not one combined pass: the
front is shrunk first while near the input's start point, then while near
its end point, and the back likewise (start point first, then end point);
each pass, while more than one point remains, drops the end vertex when it
lies within the allowance of that pass's reference point and the adjacent
segment does not exceed the segment allowance, stopping at the first
vertex failing this per-pass condition. -/
theorem claim_C4_trim_sequential_passes (sp ep : Coord) (A S : ℚ) (cs : List Coord) :
    trimLineSS sp ep A S cs =
      (trimFrontBy ep A S (trimFrontBy sp A S
        (trimFrontBy ep A S (trimFrontBy sp A S cs)).reverse)).reverse ∧
    phaseOk sp A S cs (trimFrontBy sp A S cs) ∧
    phaseOk ep A S (trimFrontBy sp A S cs)
      (trimFrontBy ep A S (trimFrontBy sp A S cs)) ∧
    phaseOk sp A S (trimFrontBy ep A S (trimFrontBy sp A S cs)).reverse
      (trimFrontBy sp A S (trimFrontBy ep A S (trimFrontBy sp A S cs)).reverse) ∧
    phaseOk ep A S
      (trimFrontBy sp A S (trimFrontBy ep A S (trimFrontBy sp A S cs)).reverse)
      (trimFrontBy ep A S
        (trimFrontBy sp A S (trimFrontBy ep A S (trimFrontBy sp A S cs)).reverse)) :=
  ⟨rfl,
   trimFrontBy_phaseOk sp A S cs,
   trimFrontBy_phaseOk ep A S _,
   trimFrontBy_phaseOk sp A S _,
   trimFrontBy_phaseOk ep A S _⟩

/-- Counterexample to C4 as stated: (i) a polyline where the code's
sequential passes (start-point pass before end-point pass) keep a vertex
that the claim's combined or-condition removes; (ii) a negative distance,
where the code's allowances use the signed distance (so nothing is
removed) while the claim's absolute-value allowances remove a vertex. -/
theorem claim_C4_counterexample :
    (trimLineSS ⟨0, 0⟩ ⟨10, 0⟩ (ptDistAllowance 5 10) (segLengthAllowance 5)
        [⟨8, 0⟩, ⟨4, 0⟩, ⟨4, 5⟩, ⟨4, 10⟩] = [⟨4, 0⟩, ⟨4, 5⟩, ⟨4, 10⟩]) ∧
    (claimTrim ⟨0, 0⟩ ⟨10, 0⟩ (ptDistAllowance 5 10) (segLengthAllowance 5)
        [⟨8, 0⟩, ⟨4, 0⟩, ⟨4, 5⟩, ⟨4, 10⟩] = [⟨4, 5⟩, ⟨4, 10⟩]) ∧
    (trimLineSS ⟨0, 0⟩ ⟨9, 9⟩ (ptDistAllowance (-1) 2) (segLengthAllowance (-1))
        [⟨0, 0⟩, ⟨1/2, 0⟩, ⟨5, 5⟩] = [⟨0, 0⟩, ⟨1/2, 0⟩, ⟨5, 5⟩]) ∧
    (claimTrim ⟨0, 0⟩ ⟨9, 9⟩ (ptDistAllowance 1 2) (segLengthAllowance 1)
        [⟨0, 0⟩, ⟨1/2, 0⟩, ⟨5, 5⟩] = [⟨1/2, 0⟩, ⟨5, 5⟩]) := by
  refine ⟨?_, ?_, ?_, ?_⟩ <;>
    norm_num [trimLineSS, trimFrontBy, claimTrim, claimTrimFront,
      distLtB, segGtB, distSq, ptDistAllowance, segLengthAllowance]

/-- Witness for C4 (amended) at the concrete polyline of the
counterexample, exhibiting the four sequential passes. -/
theorem claim_C4_trim_sequential_passes_witness :
    trimLineSS ⟨0, 0⟩ ⟨10, 0⟩ (ptDistAllowance 5 10) (segLengthAllowance 5)
        [⟨8, 0⟩, ⟨4, 0⟩, ⟨4, 5⟩, ⟨4, 10⟩] =
      (trimFrontBy ⟨10, 0⟩ (ptDistAllowance 5 10) (segLengthAllowance 5)
        (trimFrontBy ⟨0, 0⟩ (ptDistAllowance 5 10) (segLengthAllowance 5)
          (trimFrontBy ⟨10, 0⟩ (ptDistAllowance 5 10) (segLengthAllowance 5)
            (trimFrontBy ⟨0, 0⟩ (ptDistAllowance 5 10) (segLengthAllowance 5)
              [⟨8, 0⟩, ⟨4, 0⟩, ⟨4, 5⟩, ⟨4, 10⟩])).reverse)).reverse ∧
    phaseOk ⟨0, 0⟩ (ptDistAllowance 5 10) (segLengthAllowance 5)
      [⟨8, 0⟩, ⟨4, 0⟩, ⟨4, 5⟩, ⟨4, 10⟩]
      (trimFrontBy ⟨0, 0⟩ (ptDistAllowance 5 10) (segLengthAllowance 5)
        [⟨8, 0⟩, ⟨4, 0⟩, ⟨4, 5⟩, ⟨4, 10⟩]) := by
  have h := claim_C4_trim_sequential_passes ⟨0, 0⟩ ⟨10, 0⟩
    (ptDistAllowance 5 10) (segLengthAllowance 5) [⟨8, 0⟩, ⟨4, 0⟩, ⟨4, 5⟩, ⟨4, 10⟩]
  exact ⟨h.1, h.2.1⟩

/-- End cap styles of `BufferParameters`. -/
inductive EndCapStyle where
  | ROUND
  | FLAT
  | SQUARE
deriving DecidableEq, Repr

/-- Join styles of `BufferParameters`. -/
inductive JoinStyle where
  | ROUND
  | MITRE
  | BEVEL
deriving DecidableEq, Repr

/-- The buffer configuration record (geos BufferParameters). -/
structure BufferParameters where
  endCapStyle : EndCapStyle
  joinStyle : JoinStyle
  quadrantSegments : Int
  mitreLimit : ℚ
  singleSided : Bool
  simplifyFactor : ℚ
deriving DecidableEq, Repr

/-- A vector geometry, restricted to the kinds the orchestrator's control
flow distinguishes. -/
inductive Geom where
  | point (c : Coord)
  | lineString (pts : List Coord)
  | polygon (shell : List Coord) (holes : List (List Coord))
  | multiLineString (ls : List (List Coord))
  | collection (gs : List Geom)

/-- Embedding of `Geometry::getNumGeometries`: number of components (1 for atomic
geometries, the element count for collections). -/
def Geom.numGeometries : Geom → Nat
  | .collection gs => gs.length
  | .multiLineString ls => ls.length
  | _ => 1

/-- Embedding of `Geometry::getGeometryN`: the i-th component (the geometry itself for
atomic geometries; out-of-range defaults to the geometry itself, a case
never reached under `i < numGeometries`). -/
def Geom.getGeometryN (g : Geom) (i : Nat) : Geom :=
  match g with
  | .collection gs => (gs.get? i).getD g
  | .multiLineString ls => ((ls.get? i).map Geom.lineString).getD g
  | _ => g

/-- Embedding of `Geometry::getDimension`: 0 for points, 1 for lines, 2 for polygons,
the maximum over components for collections. -/
def Geom.dimension : Geom → Nat
  | .point _ => 0
  | .lineString _ => 1
  | .multiLineString _ => 1
  | .polygon _ _ => 2
  | .collection [] => 0
  | .collection (g :: gs) => Nat.max g.dimension (Geom.dimension (.collection gs))

/-- Whether a geometry is a `LineString` (the successful
`dynamic_cast<const LineString*>` of BufferBuilder.cpp:136). -/
def isLineStringG : Geom → Bool
  | .lineString _ => true
  | _ => false

/-- Whether a geometry is of linear kind (a line or multi-line). -/
def isLinearGeom : Geom → Bool
  | .lineString _ => true
  | .multiLineString _ => true
  | _ => false

/-- The empty polygon produced by
`BufferBuilder::createEmptyResultGeometry` (BufferBuilder.cpp:792-797):
`geomFact->createPolygon()` — always a polygon, whatever the input. -/
def createEmptyResultGeometry : Geom := Geom.polygon [] []

/-- The external collaborators consumed by the orchestrator, passed as
plain functions (they live outside `BufferBuilder.cpp`): curve-set
builder, noder, subgraph extraction, depth locater, polygon assembly,
geometry factory aggregation, unary union, boundary, overlay union,
polygonizer, polygon area, single-sided raw curve builder, snap-overlay
intersection, line merger, and line length. -/
structure Collab where
  getCurves : Geom → ℚ → List NodedString
  node : List NodedString → List NodedString
  extract : List Edge → List BufferSubgraph
  getDepth : List BufferSubgraph → Coord → Int
  assemble : List (BufferSubgraph × Int) → List Geom
  buildGeometry : List Geom → Geom
  unaryUnion : List Geom → Geom
  boundary : Geom → Geom
  overlayUnion : Geom → Geom → Geom
  polygonize : Geom → List Geom
  area : Geom → ℚ
  singleSidedCurve : List Coord → ℚ → Bool → List (List Coord)
  nodeCoords : List (List Coord) → List (List Coord)
  snapIntersection : Geom → Geom → Geom
  lineMerge : Geom → List (List Coord)
  lineLength : List Coord → ℚ

/-- The mutable state a `BufferBuilder` instance carries across its
single use: its parameters and its edge list. -/
structure Builder where
  params : BufferParameters
  edgeList : List Edge

/-- A freshly constructed `BufferBuilder(bufParams)`: empty edge list. -/
def newBufferBuilder (p : BufferParameters) : Builder := ⟨p, []⟩

/-- The loop of `maxArea` / `biggestPolygonIterator` in the single-sided
clean-up of `BufferBuilder::buffer` (BufferBuilder.cpp:547-560): scan the
polygons keeping the first one whose area strictly exceeds the running
maximum, which starts at 0. -/
def maxAreaLoop (area : Geom → ℚ) : List Geom → ℚ → Option Geom → Option Geom
  | [], _, best => best
  | p :: rest, maxA, best =>
      if maxA < area p then maxAreaLoop area rest (area p) (some p)
      else maxAreaLoop area rest maxA best

/-- The polygon selected by the clean-up scan, if any. -/
def maxAreaPoly (area : Geom → ℚ) (polys : List Geom) : Option Geom :=
  maxAreaLoop area polys 0 none

/-- The polygons formed in the single-sided clean-up of
`BufferBuilder::buffer` (BufferBuilder.cpp:504-541): union the input
linework (the boundary for areal inputs) with the buffer result's
boundary and polygonize. -/
def cleanupPolys (cb : Collab) (g resultGeom : Geom) : List Geom :=
  let inputLineString := if 1 < g.dimension then cb.boundary g else g
  let bufferBoundary := cb.boundary resultGeom
  let nodedLinework := cb.overlayUnion inputLineString bufferBoundary
  cb.polygonize nodedLinework

/-- The outcome of the single-sided clean-up of `BufferBuilder::buffer`
(BufferBuilder.cpp:544-570): when more than one polygon forms and the scan
finds one of positive area, return it; otherwise fall through to the
untrimmed result. -/
def ssCleanup (cb : Collab) (g resultGeom : Geom) : Geom :=
  let polys := cleanupPolys cb g resultGeom
  if 1 < polys.length then
    match maxAreaPoly cb.area polys with
    | some p => p
    | none => resultGeom
  else resultGeom

/-- Embedding of `BufferBuilder::buffer` (BufferBuilder.cpp:367-571).
Fuel bounds the per-component recursion of the single-sided
multi-geometry branch (any positive fuel suffices for the claims below;
exhausted fuel yields the empty polygon).  The pipeline middle runs the
modelled `computeNodedEdges` over the curves, sorts the extracted
subgraphs, assigns depths with the processed-prefix loop, and hands the
per-subgraph results to the external assembly. -/
def buffer (cb : Collab) (b : Builder) : Nat → Geom → ℚ → Geom
  | 0, _, _ => createEmptyResultGeometry
  | Nat.succ fuel, g, d =>
      if b.params.singleSided = true ∧ 1 < g.numGeometries then
        cb.unaryUnion ((List.range g.numGeometries).map (fun i =>
          buffer cb (newBufferBuilder b.params) fuel (g.getGeometryN i) d))
      else
        let curves := cb.getCurves g d
        if curves = [] then createEmptyResultGeometry
        else
          let edges := computeNodedEdges cb.node b.edgeList curves
          let sorted := createSubgraphs (cb.extract edges)
          let resultPolyList := cb.assemble (buildSubgraphs cb.getDepth sorted)
          if resultPolyList.isEmpty then createEmptyResultGeometry
          else
            let resultGeom := cb.buildGeometry resultPolyList
            if b.params.singleSided then ssCleanup cb g resultGeom
            else resultGeom

/-- Whether a trimmed polyline is kept by the clean-up of
`bufferLineSingleSided` (BufferBuilder.cpp:326-340): only when more than
one point remains after trimming. -/
def trimKeep (sp ep : Coord) (A S : ℚ) (cs : List Coord) : Option (List Coord) :=
  let t := trimLineSS sp ep A S cs
  if 1 < t.length then some t else none

/-- The kept trimmed polylines, in the order the C++ loop produces them:
it pops merged lines from the back, so the output order is the reverse of
the merged order (BufferBuilder.cpp:255-344). -/
def ssMergedGeoms (sp ep : Coord) (A S : ℚ)
    (mergedLines : List (List Coord)) : List (List Coord) :=
  mergedLines.reverse.filterMap (trimKeep sp ep A S)

/-- The result selection at the end of `bufferLineSingleSided`
(BufferBuilder.cpp:354-363): a multi-line for more than one kept
polyline, the single polyline as a line for exactly one, and an empty
line for none. -/
def ssSelectResult (geoms : List (List Coord)) : Geom :=
  if 1 < geoms.length then Geom.multiLineString geoms
  else
    match geoms with
    | [c] => Geom.lineString c
    | _ => Geom.lineString []

/-- The kept polylines of the single-sided pipeline for a line input
(BufferBuilder.cpp:146-344): two-sided buffer with flat caps, boundary,
raw one-sided curve, noding, snap intersection, line merging, and
per-polyline trimming. -/
def ssMerged (cb : Collab) (params : BufferParameters) (fuel : Nat)
    (l : List Coord) (d : ℚ) (leftSide : Bool) : List (List Coord) :=
  let modParams := { params with endCapStyle := EndCapStyle.FLAT, singleSided := false }
  let buf := buffer cb (newBufferBuilder modParams) fuel (Geom.lineString l) d
  let bufLineString := cb.boundary buf
  let lineList := cb.singleSidedCurve l d leftSide
  let noded := cb.nodeCoords lineList
  let singleSided := Geom.multiLineString noded
  let intersectedLines := cb.snapIntersection singleSided bufLineString
  let mergedLines := cb.lineMerge intersectedLines
  let startPoint := l.headI
  let endPoint := (l.getLast?).getD default
  let A := ptDistAllowance d (cb.lineLength l)
  let S := segLengthAllowance d
  ssMergedGeoms startPoint endPoint A S mergedLines

/-- The error raised on non-line inputs. -/
inductive BufferError where
  | illegalArgument (msg : String)
deriving DecidableEq, Repr

/-- Embedding of `BufferBuilder::bufferLineSingleSided`
(BufferBuilder.cpp:130-364): reject non-LineString inputs, clone on zero
distance, otherwise run the single-sided pipeline and select the result
kind from the number of kept polylines. -/
def bufferLineSingleSided (cb : Collab) (params : BufferParameters) (fuel : Nat)
    (g : Geom) (d : ℚ) (leftSide : Bool) : Except BufferError Geom :=
  match g with
  | .lineString pts =>
      if d = 0 then Except.ok (Geom.lineString pts)
      else Except.ok (ssSelectResult (ssMerged cb params fuel pts d leftSide))
  | _ => Except.error (BufferError.illegalArgument
      "BufferBuilder::bufferLineSingleSided only accept linestrings")

/-- Default buffer parameters (round caps and joins, 8 quadrant segments,
mitre limit 5, two-sided, simplify factor 0.01). -/
def defaultParams : BufferParameters :=
  ⟨EndCapStyle.ROUND, JoinStyle.ROUND, 8, 5, false, 1 / 100⟩

/-- Default parameters with single-sided buffering enabled. -/
def ssParams : BufferParameters :=
  { defaultParams with singleSided := true }

/-- A trivial instantiation of the external collaborators, used to
evaluate the orchestrator's control flow at concrete inputs. -/
def trivCollab : Collab where
  getCurves := fun _ _ => []
  node := id
  extract := fun _ => []
  getDepth := fun _ _ => 0
  assemble := fun _ => []
  buildGeometry := fun gs => Geom.collection gs
  unaryUnion := fun gs => Geom.collection gs
  boundary := fun g => g
  overlayUnion := fun a _ => a
  polygonize := fun _ => []
  area := fun _ => 0
  singleSidedCurve := fun _ _ _ => []
  nodeCoords := id
  snapIntersection := fun a _ => a
  lineMerge := fun _ => []
  lineLength := fun _ => 0

/-- C3 (amended): whenever the curve-set builder produces no curves (and
the single-sided multi-component recursion does not apply), `buffer`
returns the empty polygon — the same `createEmptyResultGeometry` whatever
the kind of the input. -/
theorem claim_C3_noCurves_emptyPolygon (cb : Collab) (b : Builder)
    (fuel : Nat) (g : Geom) (d : ℚ)
    (hc : cb.getCurves g d = [])
    (hns : ¬(b.params.singleSided = true ∧ 1 < g.numGeometries)) :
    buffer cb b (fuel + 1) g d = createEmptyResultGeometry := by
  simp only [buffer]
  rw [if_neg hns]
  simp [hc]

/-- Counterexample to C3 as stated: with no curves produced, a linear
input yields the empty polygon, not an empty line — the result kind does
not match the input kind. -/
theorem claim_C3_counterexample :
    buffer trivCollab (newBufferBuilder defaultParams) 1
        (Geom.lineString [⟨0, 0⟩, ⟨10, 0⟩]) 5 = createEmptyResultGeometry ∧
    isLinearGeom (Geom.lineString [⟨0, 0⟩, ⟨10, 0⟩]) = true ∧
    isLinearGeom createEmptyResultGeometry = false :=
  ⟨rfl, rfl, rfl⟩

/-- Witness for C3 (amended) at a concrete linear input with no curves. -/
theorem claim_C3_noCurves_emptyPolygon_witness :
    trivCollab.getCurves (Geom.lineString [⟨0, 0⟩, ⟨10, 0⟩]) 5 = [] ∧
    buffer trivCollab ⟨defaultParams, []⟩ 1 (Geom.lineString [⟨0, 0⟩, ⟨10, 0⟩]) 5 =
      createEmptyResultGeometry :=
  ⟨rfl, claim_C3_noCurves_emptyPolygon trivCollab ⟨defaultParams, []⟩ 0
    (Geom.lineString [⟨0, 0⟩, ⟨10, 0⟩]) 5 rfl
    (by simp [defaultParams, Geom.numGeometries])⟩

/-- C6: with single-sided buffering enabled and a multi-component input,
`buffer` recurses per component with a freshly constructed builder
carrying the same parameters (whatever edge-list state the original
builder holds, it is not reused), and unions the per-component results. -/
theorem claim_C6_singleSided_multi (cb : Collab) (b : Builder)
    (fuel : Nat) (g : Geom) (d : ℚ)
    (hss : b.params.singleSided = true) (hn : 1 < g.numGeometries) :
    buffer cb b (fuel + 1) g d =
      cb.unaryUnion ((List.range g.numGeometries).map (fun i =>
        buffer cb (newBufferBuilder b.params) fuel (g.getGeometryN i) d)) := by
  simp only [buffer]
  rw [if_pos ⟨hss, hn⟩]

/-- A concrete two-component collection used by the C6 witness. -/
def gPair : Geom :=
  Geom.collection [Geom.lineString [⟨0, 0⟩, ⟨1, 1⟩], Geom.point ⟨3, 3⟩]

/-- Witness for C6 at a concrete two-component input, applied to a builder
that already carries a nonempty edge list. -/
theorem claim_C6_singleSided_multi_witness :
    ssParams.singleSided = true ∧
    1 < gPair.numGeometries ∧
    buffer trivCollab ⟨ssParams, [eC1]⟩ 1 gPair 5 =
      trivCollab.unaryUnion ((List.range gPair.numGeometries).map (fun i =>
        buffer trivCollab (newBufferBuilder ssParams) 0 (gPair.getGeometryN i) 5)) :=
  ⟨rfl, by simp [gPair, Geom.numGeometries],
   claim_C6_singleSided_multi trivCollab ⟨ssParams, [eC1]⟩ 0 gPair 5 rfl
     (by simp [gPair, Geom.numGeometries])⟩

/-- Helper: the area scan never updates when no polygon's area exceeds
the running maximum; the incoming best survives. -/
theorem maxAreaLoop_of_all_le (area : Geom → ℚ) (l : List Geom) :
    ∀ (mA : ℚ) (best : Option Geom), (∀ p ∈ l, area p ≤ mA) →
      maxAreaLoop area l mA best = best := by
  induction l with
  | nil => intro mA best _; rfl
  | cons p rest ih =>
      intro mA best h
      have hp : area p ≤ mA := h p (by simp)
      rw [show maxAreaLoop area (p :: rest) mA best =
            if mA < area p then maxAreaLoop area rest (area p) (some p)
            else maxAreaLoop area rest mA best from rfl]
      rw [if_neg (not_lt.mpr hp)]
      exact ih mA best (fun q hq => h q (by simp [hq]))

/-- Helper: when some polygon's area exceeds the running maximum, the area
scan returns a polygon from the list whose area exceeds the starting
maximum and is at least every listed area. -/
theorem maxAreaLoop_of_exists (area : Geom → ℚ) (l : List Geom) :
    ∀ (mA : ℚ) (best : Option Geom), (∃ p ∈ l, mA < area p) →
      ∃ q ∈ l, maxAreaLoop area l mA best = some q ∧ mA < area q ∧
        ∀ r ∈ l, area r ≤ area q := by
  induction l with
  | nil =>
      rintro mA best ⟨p, hp, _⟩
      simp at hp
  | cons p rest ih =>
      intro mA best hex
      rw [show maxAreaLoop area (p :: rest) mA best =
            if mA < area p then maxAreaLoop area rest (area p) (some p)
            else maxAreaLoop area rest mA best from rfl]
      by_cases hp : mA < area p
      · rw [if_pos hp]
        by_cases hrest : ∃ r ∈ rest, area p < area r
        · rcases ih (area p) (some p) hrest with ⟨q, hqmem, heq, hq1, hq2⟩
          refine ⟨q, by simp [hqmem], heq, lt_trans hp hq1, ?_⟩
          intro r hr
          rcases List.mem_cons.mp hr with rfl | hr
          · exact le_of_lt hq1
          · exact hq2 r hr
        · push_neg at hrest
          refine ⟨p, by simp, maxAreaLoop_of_all_le area rest (area p) (some p) hrest,
            hp, ?_⟩
          intro r hr
          rcases List.mem_cons.mp hr with rfl | hr
          · exact le_refl (area r)
          · exact hrest r hr
      · rw [if_neg hp]
        have hex' : ∃ r ∈ rest, mA < area r := by
          rcases hex with ⟨q, hq, hlt⟩
          rcases List.mem_cons.mp hq with rfl | hq
          · exact absurd hlt hp
          · exact ⟨q, hq, hlt⟩
        rcases ih mA best hex' with ⟨q, hqmem, heq, hq1, hq2⟩
        refine ⟨q, by simp [hqmem], heq, hq1, ?_⟩
        intro r hr
        rcases List.mem_cons.mp hr with rfl | hr
        · exact le_of_lt (lt_of_le_of_lt (not_lt.mp hp) hq1)
        · exact hq2 r hr

/-- C9 (amended): in the single-sided clean-up of `buffer`, when zero or
one polygon is formed the untrimmed result is returned unchanged; when
more than one polygon is formed, the result is the untrimmed one when no
polygon has positive area, and otherwise a polygon of maximal (positive)
area among those formed. -/
theorem claim_C9_ssCleanup_selection (cb : Collab) (g res : Geom) :
    (¬ 1 < (cleanupPolys cb g res).length → ssCleanup cb g res = res) ∧
    (1 < (cleanupPolys cb g res).length →
      ((∀ p ∈ cleanupPolys cb g res, cb.area p ≤ 0) → ssCleanup cb g res = res) ∧
      ((∃ p ∈ cleanupPolys cb g res, 0 < cb.area p) →
        ∃ q ∈ cleanupPolys cb g res, ssCleanup cb g res = q ∧ 0 < cb.area q ∧
          ∀ r ∈ cleanupPolys cb g res, cb.area r ≤ cb.area q)) := by
  constructor
  · intro hle
    unfold ssCleanup
    rw [if_neg hle]
  · intro hgt
    constructor
    · intro hall
      unfold ssCleanup
      rw [if_pos hgt]
      unfold maxAreaPoly
      rw [maxAreaLoop_of_all_le cb.area (cleanupPolys cb g res) 0 none hall]
    · intro hex
      rcases maxAreaLoop_of_exists cb.area (cleanupPolys cb g res) 0 none hex
        with ⟨q, hqmem, heq, hq1, hq2⟩
      refine ⟨q, hqmem, ?_, hq1, hq2⟩
      unfold ssCleanup
      rw [if_pos hgt]
      unfold maxAreaPoly
      rw [heq]

/-- Concrete polygons, input, and result geometry used by the C9
counterexample and witness. -/
def pA : Geom := Geom.polygon [⟨0, 0⟩] []

/-- Second concrete polygon for C9. -/
def pB : Geom := Geom.polygon [⟨1, 1⟩] []

/-- Concrete untrimmed buffer result for C9 (not a polygon, so it is
distinguishable from every polygonizer output). -/
def res0 : Geom := Geom.lineString [⟨5, 5⟩]

/-- Concrete input geometry for C9. -/
def g0 : Geom := Geom.point ⟨0, 0⟩

/-- Collaborators for the C9 counterexample: the polygonizer forms two
polygons, both of zero area. -/
def cexCollab9 : Collab :=
  { trivCollab with polygonize := fun _ => [pA, pB] }

/-- Counterexample to C9 as stated: more than one polygon is formed, yet
the clean-up returns the untrimmed result (no polygon has positive area,
so the scan finds nothing), not the polygon of maximum area. -/
theorem claim_C9_counterexample :
    cleanupPolys cexCollab9 g0 res0 = [pA, pB] ∧
    1 < (cleanupPolys cexCollab9 g0 res0).length ∧
    ssCleanup cexCollab9 g0 res0 = res0 ∧
    res0 ≠ pA ∧ res0 ≠ pB :=
  ⟨rfl, by decide, rfl,
   fun h => Geom.noConfusion h, fun h => Geom.noConfusion h⟩

/-- Collaborators for the C9 witness: two polygons are formed and the
area function reads the x of the first shell vertex (0 for `pA`, 1 for
`pB`). -/
def cexCollab9b : Collab :=
  { trivCollab with
      polygonize := fun _ => [pA, pB],
      area := fun gg =>
        match gg with
        | .polygon (c :: _) _ => c.x
        | _ => 0 }

/-- Witness for C9 (amended) at a concrete clean-up where the second
polygon has the larger (positive) area. -/
theorem claim_C9_ssCleanup_selection_witness :
    1 < (cleanupPolys cexCollab9b g0 res0).length ∧
    pB ∈ cleanupPolys cexCollab9b g0 res0 ∧ (0 : ℚ) < cexCollab9b.area pB ∧
    (∃ q ∈ cleanupPolys cexCollab9b g0 res0,
      ssCleanup cexCollab9b g0 res0 = q ∧ 0 < cexCollab9b.area q ∧
        ∀ r ∈ cleanupPolys cexCollab9b g0 res0,
          cexCollab9b.area r ≤ cexCollab9b.area q) := by
  have hmem : pB ∈ cleanupPolys cexCollab9b g0 res0 :=
    List.mem_cons_of_mem pA (List.mem_singleton_self pB)
  have hpos : (0 : ℚ) < cexCollab9b.area pB := zero_lt_one
  have hlen : 1 < (cleanupPolys cexCollab9b g0 res0).length := by decide
  exact ⟨hlen, hmem, hpos,
    ((claim_C9_ssCleanup_selection cexCollab9b g0 res0).2 hlen).2 ⟨pB, hmem, hpos⟩⟩

/-- C5: `bufferLineSingleSided` throws an invalid-argument error for
every input that is not a LineString; for a LineString input with zero
distance it returns a clone of the input, independent of every external
collaborator (the buffer pipeline is not consulted). -/
theorem claim_C5_singleSided_guards (cb cb' : Collab) (params : BufferParameters)
    (fuel : Nat) (g : Geom) (d : ℚ) (leftSide : Bool) :
    (isLineStringG g = false →
      bufferLineSingleSided cb params fuel g d leftSide =
        Except.error (BufferError.illegalArgument
          "BufferBuilder::bufferLineSingleSided only accept linestrings")) ∧
    (∀ pts, g = Geom.lineString pts → d = 0 →
      bufferLineSingleSided cb params fuel g d leftSide = Except.ok g ∧
      bufferLineSingleSided cb params fuel g d leftSide =
        bufferLineSingleSided cb' params fuel g d leftSide) := by
  constructor
  · intro hnl
    cases g with
    | lineString pts => simp [isLineStringG] at hnl
    | point c => rfl
    | polygon shell holes => rfl
    | multiLineString ls => rfl
    | collection gs => rfl
  · rintro pts rfl rfl
    constructor <;> simp [bufferLineSingleSided]

/-- Witness for C5: a point input is rejected; a concrete line with zero
distance is returned unchanged. -/
theorem claim_C5_singleSided_guards_witness :
    isLineStringG g0 = false ∧
    bufferLineSingleSided trivCollab defaultParams 1 g0 5 true =
      Except.error (BufferError.illegalArgument
        "BufferBuilder::bufferLineSingleSided only accept linestrings") ∧
    bufferLineSingleSided trivCollab defaultParams 1
        (Geom.lineString [⟨0, 0⟩, ⟨10, 0⟩]) 0 true =
      Except.ok (Geom.lineString [⟨0, 0⟩, ⟨10, 0⟩]) :=
  ⟨rfl,
   (claim_C5_singleSided_guards trivCollab trivCollab defaultParams 1 g0 5 true).1 rfl,
   ((claim_C5_singleSided_guards trivCollab trivCollab defaultParams 1
       (Geom.lineString [⟨0, 0⟩, ⟨10, 0⟩]) 0 true).2
     [⟨0, 0⟩, ⟨10, 0⟩] rfl rfl).1⟩

/-- C8: for a LineString input with nonzero distance,
`bufferLineSingleSided` returns an empty line when no trimmed polyline
remains after clean-up (in particular when the snap intersection and
merge yield nothing), the single polyline as a LineString when exactly
one remains, and a MultiLineString of the kept polylines when more than
one remains. -/
theorem claim_C8_result_kind (cb : Collab) (params : BufferParameters)
    (fuel : Nat) (l : List Coord) (d : ℚ) (leftSide : Bool) (hd : d ≠ 0) :
    (ssMerged cb params fuel l d leftSide = [] →
      bufferLineSingleSided cb params fuel (Geom.lineString l) d leftSide =
        Except.ok (Geom.lineString [])) ∧
    (∀ c, ssMerged cb params fuel l d leftSide = [c] →
      bufferLineSingleSided cb params fuel (Geom.lineString l) d leftSide =
        Except.ok (Geom.lineString c)) ∧
    (1 < (ssMerged cb params fuel l d leftSide).length →
      bufferLineSingleSided cb params fuel (Geom.lineString l) d leftSide =
        Except.ok (Geom.multiLineString (ssMerged cb params fuel l d leftSide))) := by
  have hbls : bufferLineSingleSided cb params fuel (Geom.lineString l) d leftSide =
      Except.ok (ssSelectResult (ssMerged cb params fuel l d leftSide)) := by
    simp [bufferLineSingleSided, hd]
  refine ⟨?_, ?_, ?_⟩
  · intro h0
    rw [hbls, h0]
    rfl
  · intro c hc
    rw [hbls, hc]
    rfl
  · intro hgt
    rw [hbls]
    unfold ssSelectResult
    rw [if_pos hgt]

/-- Witness for C8: with trivial collaborators the snap intersection and
line merge produce nothing, no polyline is kept, and the result is the
empty line. -/
theorem claim_C8_result_kind_witness :
    ssMerged trivCollab defaultParams 1 [⟨0, 0⟩, ⟨10, 0⟩] 1 true = [] ∧
    bufferLineSingleSided trivCollab defaultParams 1
        (Geom.lineString [⟨0, 0⟩, ⟨10, 0⟩]) 1 true =
      Except.ok (Geom.lineString []) :=
  ⟨rfl,
   (claim_C8_result_kind trivCollab defaultParams 1 [⟨0, 0⟩, ⟨10, 0⟩] 1 true
     (by norm_num)).1 rfl⟩
